import Mathlib

/-!
# Verification of the pykernel_mcp session engine

Shallow embedding of `src/pykernel_mcp/server.py` (the authoritative,
richer variant; `pykernel_mcp.py` is an earlier version of the same code
without image handling).  The embedding models:

* `KernelState` and its lifecycle methods `ensure_started`, the shutdown
  part of `restart_kernel` (`server.py` lines 54-76, 277-286);
* the iopub receive loop of `execute_python` (`server.py` lines 183-207),
  driven by an explicit list of receive outcomes (`RecvEvent`), one per
  `asyncio.wait_for(state.kc.get_iopub_msg(), timeout=30.0)` call;
* the construction of `result_parts` (`server.py` lines 209-268);
* an interleaved semantics for two concurrently running `execute_python`
  coroutines sharing the one `state.kc` iopub queue (there is no lock in
  the source; asyncio switches tasks at `await` points and
  `get_iopub_msg` hands each queued message to exactly one waiting call).
-/

/-- One iopub message's `content`, dispatched in the source on
`msg["header"]["msg_type"]`.  Each constructor carries exactly the content
fields the corresponding branch of the loop body reads; `other` stands for
every message type the loop has no branch for (e.g. `execute_input`,
non-idle `status` is kept explicit). -/
inductive MsgContent where
  | stream (text : String)
  | displayData (data : List (String × String))
  | executeResult (data : List (String × String))
  | error (traceback : List String)
  | status (execution_state : String)
  | other
deriving DecidableEq, Repr

/-- An iopub message: `msg["parent_header"].get("msg_id")` (absent for
out-of-band chatter) plus its content. -/
structure IOPubMsg where
  parentMsgId : Option String
  content : MsgContent
deriving DecidableEq, Repr

/-- Outcome of one `asyncio.wait_for(state.kc.get_iopub_msg(), timeout=30.0)`
call: a message arrived within the 30-second budget, the call raised
`asyncio.TimeoutError`, or `get_iopub_msg` raised some other exception
(e.g. the channel was severed). -/
inductive RecvEvent where
  | msg (m : IOPubMsg)
  | timeout
  | channelClosed
deriving DecidableEq, Repr

/-- The three accumulator lists of `execute_python`:
`outputs = []`, `errors = []`, `images = []`. -/
structure Agg where
  outputs : List String
  errors : List String
  images : List String
deriving DecidableEq, Repr

def emptyAgg : Agg := ⟨[], [], []⟩

/-- The string literal appended on `asyncio.TimeoutError` (`server.py`
line 206). -/
def timeoutNotice : String := "Execution timed out after 30 seconds"

/-- The `timeout=30.0` argument of each `asyncio.wait_for` call
(`server.py` line 185): the per-receive budget in seconds. -/
def receiveBudgetSeconds : Nat := 30

/-- How the receive loop's `while True` ended. -/
inductive ExitKind where
  | idleExit    -- `break` on a matching `status`/`idle` message
  | timeoutExit -- `break` in the `except asyncio.TimeoutError` handler
  | pending     -- the supplied event list ran out with the loop still waiting
deriving DecidableEq, Repr

/-- The body of the loop for one message that passed the
`if msg["parent_header"].get("msg_id") != msg_id: continue` filter is in
`processMsg`; a mismatched tag leaves the accumulator unchanged and keeps
looping.  Returns the updated accumulator and `some exit` iff this message
makes the loop `break` (only a matching `status` message with
`execution_state == "idle"` does). -/
def processMsg (msgId : String) (acc : Agg) (m : IOPubMsg) : Agg × Option ExitKind :=
  if m.parentMsgId ≠ some msgId then (acc, none)
  else
    match m.content with
    | .stream t => ({ acc with outputs := acc.outputs ++ [t] }, none)
    | .displayData d =>
        match d.lookup "image/png" with
        | some png => ({ acc with images := acc.images ++ [png] }, none)
        | none => (acc, none)
    | .executeResult d =>
        ({ acc with outputs := acc.outputs ++ [((d.lookup "text/plain").getD "")] }, none)
    | .error tb => ({ acc with errors := acc.errors ++ tb }, none)
    | .status es => if es = "idle" then (acc, some .idleExit) else (acc, none)
    | .other => (acc, none)

/-- The `while True` receive loop of `execute_python` (`server.py` lines
183-207), as a fold over the list of receive outcomes.  `asyncio.TimeoutError`
is the only caught exception: it appends the notice and breaks; any other
exception from a receive propagates out of `execute_python`, modelled as
`.error ()`. -/
def recvLoop (msgId : String) (acc : Agg) : List RecvEvent → Except Unit (Agg × ExitKind)
  | [] => .ok (acc, .pending)
  | .timeout :: _ =>
      .ok ({ acc with errors := acc.errors ++ [timeoutNotice] }, .timeoutExit)
  | .channelClosed :: _ => .error ()
  | .msg m :: rest =>
      match processMsg msgId acc m with
      | (acc2, some ek) => .ok (acc2, ek)
      | (acc2, none) => recvLoop msgId acc2 rest

/-- Modelled from the spec: the Result's completion status.  The source has
no explicit status field; the spec's `completed` / `errored` / `timed_out`
classification is determined by how the loop exited and whether the error
list is empty (§4.4 of the spec). -/
inductive Status where
  | completed
  | errored
  | timedOut
deriving DecidableEq, Repr

def execStatus (agg : Agg) (ek : ExitKind) : Status :=
  match ek with
  | .timeoutExit => .timedOut
  | _ => if agg.errors.isEmpty then .completed else .errored

/-! ## The result_parts list (`server.py` lines 209-268) -/

/-- One element of `result_parts`, abstracted to the fields the claims are
about.  `kernelInfo` stands for the kernel-metadata `TextContent`,
`executedCode` for the echoed-code block, `imageArtifact` for an
`EmbeddedResource` with `mimeType` and `blob` from line 223-233,
`outputBlock` / `errorBlock` for the joined output and error
`TextContent`s, `successMarker` for the
`TextContent(text="✓ Code executed successfully")`, and `uiHtml` for the
final `EmbeddedResource` carrying the rendered page. -/
inductive ResultPart where
  | kernelInfo (kernelId : String) (uptime : Nat)
  | executedCode (code : String)
  | imageArtifact (mimeType : String) (blob : String)
  | outputBlock (text : String)
  | errorBlock (text : String)
  | successMarker
  | uiHtml
deriving DecidableEq, Repr

/-- `result_parts` as built in `server.py` lines 209-268: kernel info, the
echoed code, one `EmbeddedResource` per collected image (media type
`"image/png"`), the joined outputs if `outputs` is non-empty, the joined
errors if `errors` is non-empty, the success marker iff all three
accumulator lists are empty, and the UI resource. -/
def buildResultParts (code : String) (kernelId : String) (uptime : Nat)
    (agg : Agg) : List ResultPart :=
  [ResultPart.kernelInfo kernelId uptime, ResultPart.executedCode code]
  ++ agg.images.map (fun b => ResultPart.imageArtifact "image/png" b)
  ++ (if agg.outputs.isEmpty then []
      else [ResultPart.outputBlock (String.intercalate "\n" agg.outputs)])
  ++ (if agg.errors.isEmpty then []
      else [ResultPart.errorBlock (String.intercalate "\n" agg.errors)])
  ++ (if agg.outputs.isEmpty && agg.errors.isEmpty && agg.images.isEmpty
      then [ResultPart.successMarker] else [])
  ++ [ResultPart.uiHtml]

/-! ## Kernel lifecycle (`server.py` lines 54-76, 277-286) -/

/-- The mutable fields of `KernelState` the claims are about.  `km` and
`kc` are `Optional` references (`some ()` = a reference is held);
`kernelId` is `self.kernel_id`, `startTime` is `self.start_time`
(timestamps as naturals). -/
structure KernelState where
  km : Option Unit
  kc : Option Unit
  kernelId : String
  startTime : Nat
deriving DecidableEq, Repr

/-- Environment outcome for one `ensure_started` spawn attempt: either
`await self.km.start_kernel()` raises, or `await self.kc.wait_for_ready()`
raises, or everything succeeds and a fresh uuid and timestamp are drawn. -/
inductive StartStep where
  | startKernelRaises
  | waitForReadyRaises
  | ok (freshId : String) (now : Nat)
deriving DecidableEq, Repr

/-- Whether this environment outcome makes the spawn/handshake fail. -/
def StartStep.isFailure : StartStep → Bool
  | .ok _ _ => false
  | _ => true

inductive SpawnErr where
  | spawnFailure      -- start_kernel raised
  | handshakeFailure  -- wait_for_ready raised
deriving DecidableEq, Repr

/-- Outcome of `ensure_started`: the surfaced exception if any, the state
the object is left in, and whether a spawn (`start_kernel`) was attempted. -/
structure EnsureResult where
  err : Option SpawnErr
  state : KernelState
  spawned : Bool
deriving DecidableEq, Repr

/-- `KernelState.ensure_started` (`server.py` lines 66-76).  The body runs
only when `self.km is None`.  Crucially, `self.km = AsyncKernelManager()`
executes BEFORE the first fallible `await`, so a spawn or handshake failure
leaves `km` set; `self.kc = self.km.client()` likewise executes before
`wait_for_ready`.  `kernel_id` and `start_time` are reassigned only at the
end of the success path. -/
def ensure_started (s : KernelState) (step : StartStep) : EnsureResult :=
  if s.km.isSome then ⟨none, s, false⟩
  else
    let s1 : KernelState := { s with km := some () }
    match step with
    | .startKernelRaises => ⟨some .spawnFailure, s1, true⟩
    | .waitForReadyRaises => ⟨some .handshakeFailure, { s1 with kc := some () }, true⟩
    | .ok freshId now =>
        ⟨none, { s1 with kc := some (), kernelId := freshId, startTime := now }, true⟩

/-- Environment outcome for `await state.km.shutdown_kernel()`. -/
inductive ShutdownOutcome where
  | ok
  | raises
deriving DecidableEq, Repr

inductive RestartErr where
  | shutdownFailure            -- shutdown_kernel raised, propagated uncaught
  | startErr (e : SpawnErr)    -- ensure_started raised, propagated uncaught
deriving DecidableEq, Repr

/-- `restart_kernel` (`server.py` lines 278-286).  If a worker reference is
held, `await state.km.shutdown_kernel()` runs with NO try/except around it:
if it raises, the exception propagates out of `restart_kernel` before
`state.km`/`state.kc` are cleared and before `ensure_started` is reached.
On success it clears both references and then calls `ensure_started`. -/
def restart_kernel (s : KernelState) (sd : ShutdownOutcome) (step : StartStep) :
    Except RestartErr String × KernelState :=
  if s.km.isSome then
    match sd with
    | .raises => (.error .shutdownFailure, s)
    | .ok =>
        let s1 : KernelState := { s with km := none, kc := none }
        let r := ensure_started s1 step
        match r.err with
        | some e => (.error (.startErr e), r.state)
        | none => (.ok ("Kernel restarted. New ID: " ++ r.state.kernelId), r.state)
  else
    let r := ensure_started s step
    match r.err with
    | some e => (.error (.startErr e), r.state)
    | none => (.ok ("Kernel restarted. New ID: " ++ r.state.kernelId), r.state)

/-! ## `execute_python` composition (`server.py` lines 168-268) -/

/-- Outcome of one `execute_python` call: `raised` is true when an uncaught
exception propagated to the tool boundary (from `ensure_started` or from a
non-timeout receive failure); otherwise `parts` is the returned
`result_parts`, `status` the spec-level completion status, and `state` the
`KernelState` after the call. -/
structure ExecOutcome where
  raised : Bool
  parts : List ResultPart
  status : Status
  state : KernelState
deriving DecidableEq, Repr

/-- `execute_python` (`server.py` lines 168-268): `ensure_started`, send
(the fresh `msg_id` returned by `state.kc.execute(code)` is the `msgId`
parameter), run the receive loop over the receive outcomes, build
`result_parts`.  The function never assigns `state.km`/`state.kc`/
`state.kernel_id`/`state.start_time`, so the kernel state passes through
unchanged whenever `ensure_started` does not change it. -/
def execute_python (code msgId : String) (s : KernelState) (step : StartStep)
    (uptime : Nat) (events : List RecvEvent) : ExecOutcome :=
  let r := ensure_started s step
  match r.err with
  | some _ => ⟨true, [], .completed, r.state⟩
  | none =>
      match recvLoop msgId emptyAgg events with
      | .error _ => ⟨true, [], .completed, r.state⟩
      | .ok (agg, ek) =>
          ⟨false, buildResultParts code r.state.kernelId uptime agg,
            execStatus agg ek, r.state⟩

/-! ## Two concurrent `execute_python` calls

`execute_python` takes no lock; under asyncio two concurrently dispatched
tool calls each run the `while True` loop, suspending at
`await asyncio.wait_for(state.kc.get_iopub_msg(), ...)`.  Both coroutines
read from the SAME `state.kc` iopub queue, and `get_iopub_msg` hands each
queued message to exactly one caller.  We model this as a scheduler: a
list of booleans; at each step the scheduled coroutine (true = first)
receives the next message of the shared queue and runs one loop body on
it.  A coroutine whose loop has exited consumes nothing when scheduled. -/

/-- The per-coroutine loop state: its `msg_id`, its accumulator lists, and
`some ek` once its loop has exited. -/
structure TaskState where
  msgId : String
  acc : Agg
  exit : Option ExitKind
deriving DecidableEq, Repr

def initTask (msgId : String) : TaskState := ⟨msgId, emptyAgg, none⟩

/-- One loop-body step of a coroutine on a received message. -/
def stepTask (t : TaskState) (m : IOPubMsg) : TaskState :=
  match processMsg t.msgId t.acc m with
  | (acc2, ek) => { t with acc := acc2, exit := ek }

/-- Run two concurrent `execute_python` receive loops over the shared
iopub queue under a given schedule. -/
def interleavedRun : TaskState → TaskState → List IOPubMsg → List Bool →
    TaskState × TaskState
  | a, b, _, [] => (a, b)
  | a, b, [], _ :: _ => (a, b)
  | a, b, m :: q, pick :: sched =>
      if pick then
        if a.exit.isSome then interleavedRun a b (m :: q) sched
        else interleavedRun (stepTask a m) b q sched
      else
        if b.exit.isSome then interleavedRun a b (m :: q) sched
        else interleavedRun a (stepTask b m) q sched

/-- After the queue is exhausted, a coroutine still waiting sees no further
message: its next `asyncio.wait_for` raises `TimeoutError`, appending the
notice and breaking its loop. -/
def finishTask (t : TaskState) : TaskState :=
  match t.exit with
  | some _ => t
  | none =>
      let acc2 : Agg := { t.acc with errors := t.acc.errors ++ [timeoutNotice] }
      { t with acc := acc2, exit := some ExitKind.timeoutExit }

/-- Modelled from the spec: the serialized semantics the spec asserts
("queued around the whole send-plus-receive-loop unit") — each call's
receive loop alone consumes the messages its request produces, start to
idle marker. -/
def serializedRun (msgId : String) (msgs : List IOPubMsg) :
    Except Unit (Agg × ExitKind) :=
  recvLoop msgId emptyAgg (msgs.map RecvEvent.msg)

/-! ## Helper lemmas -/

/-- A message whose tag does not match is discarded without touching the
accumulator and without exiting the loop. -/
theorem processMsg_skip (msgId : String) (acc : Agg) (m : IOPubMsg)
    (h : m.parentMsgId ≠ some msgId) : processMsg msgId acc m = (acc, none) := by
  simp [processMsg, h]

/-- The loop body exits only on a matching idle status message, and exits
without touching the accumulator. -/
theorem processMsg_exit (msgId : String) (acc acc2 : Agg) (m : IOPubMsg)
    (ek : ExitKind) (h : processMsg msgId acc m = (acc2, some ek)) :
    m = ⟨some msgId, .status "idle"⟩ ∧ acc2 = acc ∧ ek = .idleExit := by
  obtain ⟨pid, c⟩ := m
  unfold processMsg at h
  repeat' split at h
  all_goals simp only [Prod.mk.injEq] at h
  all_goals simp_all

/-- Each loop-body step only appends to the three accumulator lists. -/
theorem processMsg_prefix (msgId : String) (acc acc2 : Agg) (m : IOPubMsg)
    (e : Option ExitKind) (h : processMsg msgId acc m = (acc2, e)) :
    acc.outputs <+: acc2.outputs ∧ acc.errors <+: acc2.errors ∧
      acc.images <+: acc2.images := by
  obtain ⟨pid, c⟩ := m
  unfold processMsg at h
  repeat' split at h
  all_goals simp only [Prod.mk.injEq] at h
  all_goals obtain ⟨rfl, -⟩ := h
  all_goals
    refine ⟨?_, ?_, ?_⟩ <;>
      first
        | exact List.prefix_refl _
        | exact List.prefix_append _ _

/-- The loop's `continue` on a mismatched tag: the rest of the run is
unaffected by the discarded message. -/
theorem recvLoop_skip (msgId : String) (acc : Agg) (m : IOPubMsg)
    (rest : List RecvEvent) (h : m.parentMsgId ≠ some msgId) :
    recvLoop msgId acc (.msg m :: rest) = recvLoop msgId acc rest := by
  simp only [recvLoop, processMsg_skip msgId acc m h]

/-- A matching idle status message breaks the loop at once, folding
nothing further. -/
theorem recvLoop_idle_msg (msgId : String) (acc : Agg) (rest : List RecvEvent) :
    recvLoop msgId acc (.msg ⟨some msgId, .status "idle"⟩ :: rest) =
      .ok (acc, .idleExit) := by
  simp [recvLoop, processMsg]

/-- A matching error message extends the error list with its whole
traceback and the loop continues. -/
theorem recvLoop_error_msg (msgId : String) (acc : Agg) (tb : List String)
    (rest : List RecvEvent) :
    recvLoop msgId acc (.msg ⟨some msgId, .error tb⟩ :: rest) =
      recvLoop msgId { acc with errors := acc.errors ++ tb } rest := by
  simp [recvLoop, processMsg]

/-- A matching stream message appends its text and the loop continues. -/
theorem recvLoop_stream_msg (msgId : String) (acc : Agg) (t : String)
    (rest : List RecvEvent) :
    recvLoop msgId acc (.msg ⟨some msgId, .stream t⟩ :: rest) =
      recvLoop msgId { acc with outputs := acc.outputs ++ [t] } rest := by
  simp [recvLoop, processMsg]

/-- A matching execute_result message appends
`content["data"].get("text/plain", "")` and the loop continues. -/
theorem recvLoop_executeResult_msg (msgId : String) (acc : Agg)
    (d : List (String × String)) (rest : List RecvEvent) :
    recvLoop msgId acc (.msg ⟨some msgId, .executeResult d⟩ :: rest) =
      recvLoop msgId
        { acc with outputs := acc.outputs ++ [((d.lookup "text/plain").getD "")] }
        rest := by
  simp [recvLoop, processMsg]

/-- A matching display_data message carrying an `image/png` entry appends
the payload to `images` and the loop continues. -/
theorem recvLoop_displayData_msg (msgId png : String) (acc : Agg)
    (d : List (String × String)) (rest : List RecvEvent)
    (hd : d.lookup "image/png" = some png) :
    recvLoop msgId acc (.msg ⟨some msgId, .displayData d⟩ :: rest) =
      recvLoop msgId { acc with images := acc.images ++ [png] } rest := by
  simp [recvLoop, processMsg, hd]

/-- If the loop ended via the idle `break`, a status/idle message tagged to
the current request was among the received events. -/
theorem recvLoop_idleExit_mem (msgId : String) (events : List RecvEvent)
    (acc agg : Agg) (h : recvLoop msgId acc events = .ok (agg, .idleExit)) :
    RecvEvent.msg ⟨some msgId, .status "idle"⟩ ∈ events := by
  induction events generalizing acc with
  | nil => simp [recvLoop] at h
  | cons ev rest ih =>
      cases ev with
      | timeout => simp [recvLoop] at h
      | channelClosed => simp [recvLoop] at h
      | msg m =>
          simp only [recvLoop] at h
          rcases hp : processMsg msgId acc m with ⟨acc2, e⟩
          rw [hp] at h
          cases e with
          | some ek =>
              simp only [Except.ok.injEq, Prod.mk.injEq] at h
              obtain ⟨-, rfl⟩ := h
              obtain ⟨hm, -, -⟩ := processMsg_exit msgId acc acc2 m _ hp
              subst hm
              exact List.mem_cons_self _ _
          | none =>
              exact List.mem_cons_of_mem _ (ih acc2 h)

/-- Over a whole loop run, the accumulator lists only grow at the end:
whatever was collected stays, in order. -/
theorem recvLoop_prefix (msgId : String) (events : List RecvEvent) (acc agg : Agg)
    (ek : ExitKind) (h : recvLoop msgId acc events = .ok (agg, ek)) :
    acc.outputs <+: agg.outputs ∧ acc.errors <+: agg.errors ∧
      acc.images <+: agg.images := by
  induction events generalizing acc with
  | nil =>
      simp only [recvLoop] at h
      obtain ⟨rfl, rfl⟩ : acc = agg ∧ ExitKind.pending = ek := by
        simpa using h
      simp
  | cons ev rest ih =>
      cases ev with
      | timeout =>
          simp only [recvLoop] at h
          obtain ⟨h1, _⟩ : _ ∧ ExitKind.timeoutExit = ek := by simpa using h
          subst h1
          simp
      | channelClosed => simp [recvLoop] at h
      | msg m =>
          simp only [recvLoop] at h
          rcases hp : processMsg msgId acc m with ⟨acc2, e⟩
          rw [hp] at h
          have hpre := processMsg_prefix msgId acc acc2 m e hp
          cases e with
          | some ek2 =>
              simp only at h
              obtain ⟨rfl, _⟩ : acc2 = agg ∧ ek2 = ek := by simpa using h
              exact hpre
          | none =>
              simp only at h
              have := ih acc2 h
              exact ⟨hpre.1.trans this.1, hpre.2.1.trans this.2.1,
                hpre.2.2.trans this.2.2⟩

/-- A coroutine's loop body leaves its task state untouched on a message
tagged to a different request. -/
theorem stepTask_foreign (a : TaskState) (m : IOPubMsg) (ha : a.exit = none)
    (h : m.parentMsgId ≠ some a.msgId) : stepTask a m = a := by
  obtain ⟨mid, acc, ex⟩ := a
  simp only at ha h
  subst ha
  simp [stepTask, processMsg_skip _ _ _ h]

/-- If no message of the shared queue is tagged with the first coroutine's
request id, the first coroutine's task state survives any interleaving
unchanged: the other call's traffic never contaminates it. -/
theorem interleavedRun_foreign_fst (a b : TaskState) (q : List IOPubMsg)
    (sched : List Bool) (h : ∀ m ∈ q, m.parentMsgId ≠ some a.msgId) :
    (interleavedRun a b q sched).1 = a := by
  induction sched generalizing a b q with
  | nil => simp [interleavedRun]
  | cons pick sched ih =>
      cases q with
      | nil => simp [interleavedRun]
      | cons m q =>
          have hm := h m (List.mem_cons_self _ _)
          have hq : ∀ x ∈ q, x.parentMsgId ≠ some a.msgId :=
            fun x hx => h x (List.mem_cons_of_mem _ hx)
          cases pick with
          | true =>
              by_cases hex : a.exit.isSome
              · simpa [interleavedRun, hex] using ih a b (m :: q) h
              · have ha : a.exit = none := by
                  cases hcase : a.exit <;> simp_all
                have hstep := stepTask_foreign a m ha hm
                simpa [interleavedRun, hex, hstep] using ih a b q hq
          | false =>
              by_cases hex : b.exit.isSome
              · simpa [interleavedRun, hex] using ih a b (m :: q) h
              · have hstep : (stepTask b m).msgId = b.msgId := by
                  simp [stepTask]
                simpa [interleavedRun, hex] using ih a (stepTask b m) q hq

/-- Mirror image of `interleavedRun_foreign_fst` for the second coroutine. -/
theorem interleavedRun_foreign_snd (a b : TaskState) (q : List IOPubMsg)
    (sched : List Bool) (h : ∀ m ∈ q, m.parentMsgId ≠ some b.msgId) :
    (interleavedRun a b q sched).2 = b := by
  induction sched generalizing a b q with
  | nil => simp [interleavedRun]
  | cons pick sched ih =>
      cases q with
      | nil => simp [interleavedRun]
      | cons m q =>
          have hm := h m (List.mem_cons_self _ _)
          have hq : ∀ x ∈ q, x.parentMsgId ≠ some b.msgId :=
            fun x hx => h x (List.mem_cons_of_mem _ hx)
          cases pick with
          | false =>
              by_cases hex : b.exit.isSome
              · simpa [interleavedRun, hex] using ih a b (m :: q) h
              · have hb : b.exit = none := by
                  cases hcase : b.exit <;> simp_all
                have hstep := stepTask_foreign b m hb hm
                simpa [interleavedRun, hex, hstep] using ih a b q hq
          | true =>
              by_cases hex : a.exit.isSome
              · simpa [interleavedRun, hex] using ih a b (m :: q) h
              · simpa [interleavedRun, hex] using ih (stepTask a m) b q hq

/-! ## Claims -/

/-- C9: `ensure_started` is idempotent: calling it while a worker reference
is held is a no-op — the spawn path is not entered (`spawned = false`), no
error is raised, and `km`, `kc`, `kernel_id` and `start_time` are all left
unchanged, whatever the environment would have done. -/
theorem ensure_started_idempotent (s : KernelState) (step : StartStep)
    (h : s.km.isSome) : ensure_started s step = ⟨none, s, false⟩ := by
  simp [ensure_started, h]

theorem ensure_started_idempotent_witness :
    ensure_started ⟨some (), some (), "k", 5⟩ (.ok "fresh" 9) =
      ⟨none, ⟨some (), some (), "k", 5⟩, false⟩ :=
  ensure_started_idempotent ⟨some (), some (), "k", 5⟩ (.ok "fresh" 9) rfl

/-- C5: each receive carries its own fixed 30-second budget
(`asyncio.wait_for(..., timeout=30.0)` wraps every `get_iopub_msg` call
separately, so the budget resets on every received message); when one
receive times out, the loop ends at once with the fixed notice
"Execution timed out after 30 seconds" appended to the error list and
status `timed_out`, and `execute_python` leaves the kernel state — hence
the running worker — untouched for any sequence of receive outcomes. -/
theorem execute_timeout_budget (msgId code : String) (acc : Agg)
    (rest events : List RecvEvent) (s : KernelState) (step : StartStep)
    (uptime : Nat) (h : s.km.isSome) :
    recvLoop msgId acc (.timeout :: rest) =
      .ok ({ acc with errors := acc.errors ++ [timeoutNotice] }, .timeoutExit)
    ∧ execStatus { acc with errors := acc.errors ++ [timeoutNotice] }
        .timeoutExit = .timedOut
    ∧ timeoutNotice = "Execution timed out after 30 seconds"
    ∧ receiveBudgetSeconds = 30
    ∧ (execute_python code msgId s step uptime events).state = s := by
  have hr : ensure_started s step = ⟨none, s, false⟩ := by
    simp [ensure_started, h]
  refine ⟨rfl, rfl, rfl, rfl, ?_⟩
  simp only [execute_python, hr]
  cases hrl : recvLoop msgId emptyAgg events with
  | error e => rfl
  | ok p => cases p; rfl

theorem execute_timeout_budget_witness :
    recvLoop "a" emptyAgg [RecvEvent.timeout] =
      .ok (⟨[], [timeoutNotice], []⟩, .timeoutExit)
    ∧ execStatus ⟨[], [timeoutNotice], []⟩ .timeoutExit = .timedOut
    ∧ timeoutNotice = "Execution timed out after 30 seconds"
    ∧ receiveBudgetSeconds = 30
    ∧ (execute_python "x" "a" ⟨some (), some (), "k", 0⟩ (.ok "f" 9) 2
        [RecvEvent.timeout]).state = ⟨some (), some (), "k", 0⟩ :=
  execute_timeout_budget "a" "x" emptyAgg [] [RecvEvent.timeout]
    ⟨some (), some (), "k", 0⟩ (.ok "f" 9) 2 rfl

/-- C6: the receive loop discards every message whose parent msg_id
differs from the current request's id — the rest of the run is exactly as
if the message had never arrived, so nothing of it is folded into the
result and the loop does not terminate on it — and the loop breaks
normally exactly on a status message with execution_state "idle" tagged to
the current request: such a message ends the run immediately, and any run
that ended with the idle break received such a message. -/
theorem recvLoop_filter_and_idle (msgId : String) (acc : Agg) :
    (∀ (m : IOPubMsg) (rest : List RecvEvent), m.parentMsgId ≠ some msgId →
        recvLoop msgId acc (.msg m :: rest) = recvLoop msgId acc rest)
    ∧ (∀ rest : List RecvEvent,
        recvLoop msgId acc (.msg ⟨some msgId, .status "idle"⟩ :: rest) =
          .ok (acc, .idleExit))
    ∧ (∀ (events : List RecvEvent) (agg : Agg),
        recvLoop msgId acc events = .ok (agg, .idleExit) →
          RecvEvent.msg ⟨some msgId, .status "idle"⟩ ∈ events) :=
  ⟨fun m rest h => recvLoop_skip msgId acc m rest h,
    fun rest => recvLoop_idle_msg msgId acc rest,
    fun events agg h => recvLoop_idleExit_mem msgId events acc agg h⟩

theorem recvLoop_filter_and_idle_witness :
    recvLoop "a" emptyAgg
        [RecvEvent.msg ⟨some "b", .stream "foreign"⟩,
          RecvEvent.msg ⟨some "a", .status "idle"⟩] =
      recvLoop "a" emptyAgg [RecvEvent.msg ⟨some "a", .status "idle"⟩]
    ∧ recvLoop "a" emptyAgg [RecvEvent.msg ⟨some "a", .status "idle"⟩] =
        .ok (emptyAgg, .idleExit)
    ∧ RecvEvent.msg ⟨some "a", .status "idle"⟩ ∈
        [RecvEvent.msg ⟨some "a", .status "idle"⟩] := by
  obtain ⟨h1, h2, h3⟩ := recvLoop_filter_and_idle "a" emptyAgg
  exact ⟨h1 ⟨some "b", .stream "foreign"⟩ _ (by decide), h2 _,
    h3 [RecvEvent.msg ⟨some "a", .status "idle"⟩] emptyAgg (h2 _)⟩

/-- C7: a matching error message appends all of its traceback lines in
order to the error list without stopping aggregation — the run continues
exactly as the loop would on the remaining events, the appended traceback
survives (in order) into the final error list, text output collected
before the fault survives as a prefix (arrival order preserved), and a
run that ends at the idle marker with a non-empty error list has status
`errored`. -/
theorem recvLoop_error_folding (msgId : String) (acc agg : Agg)
    (tb : List String) (rest : List RecvEvent) (ek : ExitKind)
    (h : recvLoop msgId { acc with errors := acc.errors ++ tb } rest =
      .ok (agg, ek)) :
    recvLoop msgId acc (.msg ⟨some msgId, .error tb⟩ :: rest) = .ok (agg, ek)
    ∧ (acc.errors ++ tb) <+: agg.errors
    ∧ acc.outputs <+: agg.outputs
    ∧ (agg.errors ≠ [] → execStatus agg .idleExit = .errored) := by
  have hpre := recvLoop_prefix msgId rest { acc with errors := acc.errors ++ tb }
    agg ek h
  refine ⟨?_, hpre.2.1, hpre.1, ?_⟩
  · rw [recvLoop_error_msg]
    exact h
  · intro hne
    simp [execStatus, List.isEmpty_iff, hne]

theorem recvLoop_error_folding_witness :
    recvLoop "a" ⟨["before"], [], []⟩
        [RecvEvent.msg ⟨some "a", .error ["Traceback", "ZeroDivisionError"]⟩,
          RecvEvent.msg ⟨some "a", .status "idle"⟩] =
      .ok (⟨["before"], ["Traceback", "ZeroDivisionError"], []⟩, .idleExit)
    ∧ ([] ++ ["Traceback", "ZeroDivisionError"]) <+:
        ["Traceback", "ZeroDivisionError"]
    ∧ ["before"] <+: ["before"]
    ∧ ((["Traceback", "ZeroDivisionError"] : List String) ≠ [] →
        execStatus ⟨["before"], ["Traceback", "ZeroDivisionError"], []⟩
          .idleExit = .errored) := by
  have := recvLoop_error_folding "a" ⟨["before"], [], []⟩
    ⟨["before"], ["Traceback", "ZeroDivisionError"], []⟩
    ["Traceback", "ZeroDivisionError"]
    [RecvEvent.msg ⟨some "a", .status "idle"⟩] .idleExit (by rfl)
  exact this

/-- C8: a matching display_data message whose data mapping has an
`image/png` entry appends that payload to the image list while leaving the
text-output list (and the rest of the run) exactly as the remaining events
dictate, and every collected image reappears in `result_parts` as an
artifact with media type `"image/png"` and the payload as its blob. -/
theorem displayData_image_artifact (msgId png code kernelId : String)
    (uptime : Nat) (acc agg : Agg) (d : List (String × String))
    (rest : List RecvEvent) (hd : d.lookup "image/png" = some png) :
    recvLoop msgId acc (.msg ⟨some msgId, .displayData d⟩ :: rest) =
      recvLoop msgId { acc with images := acc.images ++ [png] } rest
    ∧ ({ acc with images := acc.images ++ [png] } : Agg).outputs = acc.outputs
    ∧ (png ∈ agg.images → ResultPart.imageArtifact "image/png" png ∈
        buildResultParts code kernelId uptime agg) := by
  refine ⟨recvLoop_displayData_msg msgId png acc d rest hd, rfl, ?_⟩
  intro hmem
  simp only [buildResultParts, List.mem_append]
  refine Or.inl (Or.inl (Or.inl (Or.inl (Or.inr ?_))))
  exact List.mem_map_of_mem _ hmem

theorem displayData_image_artifact_witness :
    recvLoop "a" emptyAgg
        [RecvEvent.msg ⟨some "a", .displayData [("image/png", "iVBOR")]⟩] =
      recvLoop "a" ⟨[], [], ["iVBOR"]⟩ []
    ∧ (⟨[], [], ["iVBOR"]⟩ : Agg).outputs = emptyAgg.outputs
    ∧ ("iVBOR" ∈ (⟨[], [], ["iVBOR"]⟩ : Agg).images →
        ResultPart.imageArtifact "image/png" "iVBOR" ∈
          buildResultParts "plt.plot(x)" "k" 3 ⟨[], [], ["iVBOR"]⟩) := by
  have := displayData_image_artifact "a" "iVBOR" "plt.plot(x)" "k" 3
    emptyAgg ⟨[], [], ["iVBOR"]⟩ [("image/png", "iVBOR")] [] (by rfl)
  exact this

/-- C10: a matching execute_result message whose data mapping has no
`text/plain` key appends the empty string to the text-output list
(`content["data"].get("text/plain", "")`); the output list is then
non-empty for the rest of the run, and for an aggregation state with a
non-empty output list the success marker "✓ Code executed successfully"
is absent from `result_parts`. -/
theorem executeResult_missing_text_plain (msgId code kernelId : String)
    (uptime : Nat) (acc agg : Agg) (d : List (String × String))
    (rest : List RecvEvent) (ek : ExitKind)
    (hd : d.lookup "text/plain" = none)
    (h : recvLoop msgId { acc with outputs := acc.outputs ++ [""] } rest =
      .ok (agg, ek)) :
    recvLoop msgId acc (.msg ⟨some msgId, .executeResult d⟩ :: rest) =
      .ok (agg, ek)
    ∧ agg.outputs ≠ []
    ∧ ResultPart.successMarker ∉ buildResultParts code kernelId uptime agg := by
  have hpre := recvLoop_prefix msgId rest
    { acc with outputs := acc.outputs ++ [""] } agg ek h
  have hne : agg.outputs ≠ [] := by
    obtain ⟨t, ht⟩ := hpre.1
    intro hnil
    rw [hnil] at ht
    simp at ht
  refine ⟨?_, hne, ?_⟩
  · rw [recvLoop_executeResult_msg, hd]
    exact h
  · simp [buildResultParts, List.isEmpty_iff, hne]

theorem executeResult_missing_text_plain_witness :
    recvLoop "a" emptyAgg
        [RecvEvent.msg ⟨some "a", .executeResult [("image/png", "iVBOR")]⟩,
          RecvEvent.msg ⟨some "a", .status "idle"⟩] =
      .ok (⟨[""], [], []⟩, .idleExit)
    ∧ (⟨[""], [], []⟩ : Agg).outputs ≠ []
    ∧ ResultPart.successMarker ∉ buildResultParts "x" "k" 3 ⟨[""], [], []⟩ := by
  have := executeResult_missing_text_plain "a" "x" "k" 3 emptyAgg
    ⟨[""], [], []⟩ [("image/png", "iVBOR")]
    [RecvEvent.msg ⟨some "a", .status "idle"⟩] .idleExit (by rfl) (by rfl)
  exact this

/-- C1 (counterexample): on a fresh session, a spawn failure in
`ensure_started` surfaces the error, but `self.km` was already assigned
before the failing `await self.km.start_kernel()`, so a partial worker
reference IS retained (`km = some ()`, `kc = none`) — and a subsequent
`ensure_started` call does not attempt a fresh start (`spawned = false`),
silently no-opping on the half-initialized session. -/
theorem ensure_started_failure_cex :
    (ensure_started ⟨none, none, "k0", 0⟩ .startKernelRaises).err =
      some .spawnFailure
    ∧ (ensure_started ⟨none, none, "k0", 0⟩ .startKernelRaises).state.km =
        some ()
    ∧ (ensure_started ⟨none, none, "k0", 0⟩ .startKernelRaises).state.kc = none
    ∧ (ensure_started
        (ensure_started ⟨none, none, "k0", 0⟩ .startKernelRaises).state
        (.ok "fresh" 9)).spawned = false :=
  ⟨rfl, rfl, rfl, rfl⟩

/-- C1 (amended): if spawn or the readiness handshake fails, the error is
surfaced to the caller of `ensure_started`, but because `self.km` is
assigned before the first fallible `await`, the failed call retains a
partial worker reference (`km` set) and keeps the old session identifier,
and a subsequent `ensure_started` call no-ops on the half-initialized
session (no spawn attempted, state unchanged) instead of attempting a
fresh start. -/
theorem ensure_started_failure_partial (s : KernelState)
    (step step2 : StartStep) (h : s.km = none)
    (hf : step.isFailure = true) :
    (ensure_started s step).err.isSome = true
    ∧ (ensure_started s step).state.km = some ()
    ∧ (ensure_started s step).state.kernelId = s.kernelId
    ∧ ensure_started (ensure_started s step).state step2 =
        ⟨none, (ensure_started s step).state, false⟩ := by
  cases step <;> simp_all [ensure_started, StartStep.isFailure]

theorem ensure_started_failure_partial_witness :
    (ensure_started ⟨none, none, "k0", 0⟩ .waitForReadyRaises).err.isSome = true
    ∧ (ensure_started ⟨none, none, "k0", 0⟩ .waitForReadyRaises).state.km =
        some ()
    ∧ (ensure_started ⟨none, none, "k0", 0⟩ .waitForReadyRaises).state.kernelId
        = "k0"
    ∧ ensure_started
        (ensure_started ⟨none, none, "k0", 0⟩ .waitForReadyRaises).state
        (.ok "fresh" 9) =
      ⟨none, (ensure_started ⟨none, none, "k0", 0⟩ .waitForReadyRaises).state,
        false⟩ :=
  ensure_started_failure_partial ⟨none, none, "k0", 0⟩ .waitForReadyRaises
    (.ok "fresh" 9) rfl rfl

/-- C3 (counterexample): when a worker is alive and
`await state.km.shutdown_kernel()` raises, `restart_kernel` propagates the
exception: no fresh worker is established, the session identifier is not
renewed, and the old worker reference is retained — the fresh start is
not mandatory, it is skipped entirely. -/
theorem restart_shutdown_failure_cex :
    restart_kernel ⟨some (), some (), "old", 3⟩ .raises (.ok "new" 9) =
      (.error .shutdownFailure, ⟨some (), some (), "old", 3⟩) :=
  rfl

/-- C3 (amended): `restart_kernel` performs shutdown then `ensure_started`,
but teardown is not best-effort: if shutdown of the old worker raises, the
error propagates out of `restart_kernel` with the state (old reference,
old session identifier) unchanged and no fresh start attempted; only when
no worker is alive or shutdown succeeds does it establish a fresh worker
with the new session identifier. -/
theorem restart_behavior (s : KernelState) (freshId : String) (now : Nat)
    (h : s.km.isSome) :
    restart_kernel s .raises (.ok freshId now) = (.error .shutdownFailure, s)
    ∧ restart_kernel s .ok (.ok freshId now) =
        (.ok ("Kernel restarted. New ID: " ++ freshId),
          ⟨some (), some (), freshId, now⟩) := by
  obtain ⟨km, kc, id0, t0⟩ := s
  cases km with
  | none => simp at h
  | some u => exact ⟨rfl, rfl⟩

theorem restart_behavior_witness :
    restart_kernel ⟨some (), some (), "old", 3⟩ .raises (.ok "new" 9) =
      (.error .shutdownFailure, ⟨some (), some (), "old", 3⟩)
    ∧ restart_kernel ⟨some (), some (), "old", 3⟩ .ok (.ok "new" 9) =
        (.ok ("Kernel restarted. New ID: " ++ "new"),
          ⟨some (), some (), "new", 9⟩) :=
  restart_behavior ⟨some (), some (), "old", 3⟩ "new" 9 rfl

/-- C4 (counterexample): a severed channel mid-receive does NOT become a
synthetic error entry: the receive loop's `except` clause catches only
`asyncio.TimeoutError`, so the failure propagates as an exception out of
`execute_python` (no structured Result is returned) even though the
worker had started. -/
theorem channelClosed_raises_cex :
    recvLoop "a" emptyAgg [RecvEvent.channelClosed] = .error ()
    ∧ (execute_python "1+1" "a" ⟨some (), some (), "k", 0⟩ (.ok "f" 9) 0
        [RecvEvent.channelClosed]).raised = true :=
  ⟨rfl, rfl⟩

/-- C4 (amended): only `asyncio.TimeoutError` is folded into the Result —
a timed-out receive ends aggregation with the synthetic timeout notice —
while any other receive failure (e.g. the channel severed mid-receive)
propagates as an exception out of `execute_python` even once the worker
is started: `execute` does raise for that in-execution fault. -/
theorem recvLoop_only_timeout_caught (msgId code : String) (acc : Agg)
    (rest events : List RecvEvent) (s : KernelState) (step : StartStep)
    (uptime : Nat) (h : s.km.isSome) :
    recvLoop msgId acc (.channelClosed :: rest) = .error ()
    ∧ recvLoop msgId acc (.timeout :: rest) =
        .ok ({ acc with errors := acc.errors ++ [timeoutNotice] },
          .timeoutExit)
    ∧ (execute_python code msgId s step uptime
        (.channelClosed :: events)).raised = true := by
  have hr : ensure_started s step = ⟨none, s, false⟩ := by
    simp [ensure_started, h]
  refine ⟨rfl, rfl, ?_⟩
  simp only [execute_python, hr]
  rfl

theorem recvLoop_only_timeout_caught_witness :
    recvLoop "a" emptyAgg [RecvEvent.channelClosed] = .error ()
    ∧ recvLoop "a" emptyAgg [RecvEvent.timeout] =
        .ok (⟨[], [timeoutNotice], []⟩, .timeoutExit)
    ∧ (execute_python "1+1" "a" ⟨some (), some (), "k", 0⟩ (.ok "f" 9) 0
        [RecvEvent.channelClosed]).raised = true :=
  recvLoop_only_timeout_caught "a" "1+1" emptyAgg [] []
    ⟨some (), some (), "k", 0⟩ (.ok "f" 9) 0 rfl

/-- C2 (counterexample): two concurrent `execute_python` calls are NOT
serialized — there is no lock, so their receive loops interleave on the
shared iopub queue.  With requests "a" (no output) and "b" (prints "hi"),
the queue holds b's stream output, a's idle marker and b's idle marker;
under the schedule a, b, a each loop consumes (and, by the tag filter,
discards) a message belonging to the other request, so both calls starve,
time out, and caller b's Result loses its own output — whereas the
serialized run the claim asserts gives b its output "hi" and a normal
idle termination. -/
theorem interleaving_not_serialized_cex :
    (interleavedRun (initTask "a") (initTask "b")
        [⟨some "b", .stream "hi"⟩, ⟨some "a", .status "idle"⟩,
          ⟨some "b", .status "idle"⟩]
        [true, false, true]).2.acc.outputs = []
    ∧ (finishTask (interleavedRun (initTask "a") (initTask "b")
        [⟨some "b", .stream "hi"⟩, ⟨some "a", .status "idle"⟩,
          ⟨some "b", .status "idle"⟩]
        [true, false, true]).2).exit = some .timeoutExit
    ∧ (finishTask (interleavedRun (initTask "a") (initTask "b")
        [⟨some "b", .stream "hi"⟩, ⟨some "a", .status "idle"⟩,
          ⟨some "b", .status "idle"⟩]
        [true, false, true]).2).acc.errors = [timeoutNotice]
    ∧ serializedRun "b" [⟨some "b", .stream "hi"⟩, ⟨some "b", .status "idle"⟩]
        = .ok (⟨["hi"], [], []⟩, .idleExit) :=
  ⟨rfl, rfl, rfl, rfl⟩

/-- C2 (amended): concurrent `execute_python` calls against the same
session are not serialized (no mutex exists); their receive loops
interleave on the shared iopub queue, each message being consumed by
exactly one of them.  The per-request tag filter still rules out
cross-contamination: a caller whose request id tags none of the queued
messages ends the interleaved run with its task state — text, error and
artifact lists — exactly as it started, under every schedule; but a
caller's own messages may be consumed and discarded by the other loop, so
its own output can be lost and the call can time out (see the
counterexample). -/
theorem interleaved_no_cross_contamination (a b : TaskState)
    (q : List IOPubMsg) (sched : List Bool) :
    ((∀ m ∈ q, m.parentMsgId ≠ some a.msgId) →
        (interleavedRun a b q sched).1 = a)
    ∧ ((∀ m ∈ q, m.parentMsgId ≠ some b.msgId) →
        (interleavedRun a b q sched).2 = b) :=
  ⟨fun h => interleavedRun_foreign_fst a b q sched h,
    fun h => interleavedRun_foreign_snd a b q sched h⟩

theorem interleaved_no_cross_contamination_witness :
    (interleavedRun (initTask "a") (initTask "b")
        [⟨some "b", .stream "hi"⟩] [true, false]).1 = initTask "a"
    ∧ (interleavedRun (initTask "a") (initTask "c")
        [⟨some "b", .stream "hi"⟩] [true, false]).2 = initTask "c" := by
  obtain ⟨h1, -⟩ := interleaved_no_cross_contamination (initTask "a")
    (initTask "b") [⟨some "b", .stream "hi"⟩] [true, false]
  obtain ⟨-, h2⟩ := interleaved_no_cross_contamination (initTask "a")
    (initTask "c") [⟨some "b", .stream "hi"⟩] [true, false]
  exact ⟨h1 (by decide), h2 (by decide)⟩
